import Mathlib

/-
Shallow embedding of the discordhook package: a client for a single Discord
webhook endpoint.  Pure Go functions become Lean functions; the HTTP exchange
is modelled by an explicit request/response data type and a transport
function supplied by the client record.  JSON documents are modelled
structurally (the textual encoding is abstracted away); machine integers
(uint64 snowflakes, int colors, status codes) are modelled by Nat/Int — no
arithmetic in this package can overflow, since the code only formats and
compares them.
-/

/-- Structural model of a JSON document.  Numbers are modelled as integers:
every numeric payload in this package (snowflake ids, webhook type, embed
color, image sizes) is integral. -/
inductive Json where
  | null : Json
  | bool : Bool → Json
  | num : Int → Json
  | str : String → Json
  | arr : List Json → Json
  | obj : List (String × Json) → Json

/-- First-match association lookup over the members of a JSON object.  The
marshallers in this file never emit a duplicate key, so first-match agrees
with Go's decoder on every document they produce. -/
def lookupPairs : List (String × Json) → String → Option Json
  | [], _ => none
  | (k, v) :: rest, key => if k = key then some v else lookupPairs rest key

/-- Field lookup on a JSON value: members of an object, nothing otherwise. -/
def Json.lookup : Json → String → Option Json
  | .obj kvs, key => lookupPairs kvs key
  | _, _ => none

/-- Snowflake (github.com/andersfylling/snowflake): a 64-bit unsigned
platform identifier. -/
abbrev Snowflake := Nat

/-- strconv.ParseUint base 10: all-digit, non-empty strings only. -/
def parseDecimal (s : String) : Option Nat :=
  if s.data.isEmpty then none
  else s.data.foldl
    (fun acc c =>
      match acc with
      | none => none
      | some n => if c.isDigit then some (n * 10 + (c.toNat - 48)) else none)
    (some 0)

/-- snowflake.Snowflake.MarshalJSON: the zero snowflake marshals as JSON
null, every other value as its base-10 digits in a JSON string. -/
def marshalSnowflake (s : Snowflake) : Json :=
  if s = 0 then .null else .str (Nat.repr s)

/-- snowflake.Snowflake.UnmarshalJSON: accepts null (zero value), a quoted
base-10 string, or a plain non-negative number. -/
def unmarshalSnowflake : Json → Option Snowflake
  | .null => some 0
  | .str s => parseDecimal s
  | .num n => if 0 ≤ n then some n.toNat else none
  | _ => none

/-! Field decoders, modelling how encoding/json fills one struct field from
a (possibly absent) object member: an absent or null member leaves the
field at its zero value; a member of the wrong JSON kind is a decode
error. -/

/-- Decode a `string` struct field from the member `key`. -/
def decodeStringField (j : Json) (key : String) : Option String :=
  match j.lookup key with
  | none => some ""
  | some .null => some ""
  | some (.str s) => some s
  | some _ => none

/-- Decode an `int` struct field from the member `key`. -/
def decodeIntField (j : Json) (key : String) : Option Int :=
  match j.lookup key with
  | none => some 0
  | some .null => some 0
  | some (.num n) => some n
  | some _ => none

/-- Decode a `bool` struct field from the member `key`. -/
def decodeBoolField (j : Json) (key : String) : Option Bool :=
  match j.lookup key with
  | none => some false
  | some .null => some false
  | some (.bool b) => some b
  | some _ => none

/-- Decode a snowflake struct field from the member `key` via the
snowflake's own UnmarshalJSON. -/
def decodeSnowflakeField (j : Json) (key : String) : Option Snowflake :=
  match j.lookup key with
  | none => some 0
  | some v => unmarshalSnowflake v

/-- Decode a pointer-to-struct field: absent or null leaves the pointer
nil, otherwise the sub-decoder runs on the member. -/
def decodeOptStruct (j : Json) (key : String) (dec : Json → Option α) :
    Option (Option α) :=
  match j.lookup key with
  | none => some none
  | some .null => some none
  | some v => (dec v).map some

/-- Decode an optional string-valued pointer field (models `*time.Time`,
whose wire form is a timestamp string; the textual time format itself is
kept verbatim rather than parsed). -/
def decodeOptStringField (j : Json) (key : String) : Option (Option String) :=
  match j.lookup key with
  | none => some none
  | some .null => some none
  | some (.str s) => some (some s)
  | some _ => none

/-- Decode a slice field: absent or null is the nil (empty) slice,
an array decodes elementwise, anything else is a decode error. -/
def decodeListField (j : Json) (key : String) (dec : Json → Option α) :
    Option (List α) :=
  match j.lookup key with
  | none => some []
  | some .null => some []
  | some (.arr l) => l.mapM dec
  | some _ => none

/-! Marshalling helpers, modelling encoding/json's `omitempty` tag option
field-by-field: a field at its zero value contributes no member. -/

/-- A string field tagged `omitempty`. -/
def omitString (key : String) (v : String) : List (String × Json) :=
  if v = "" then [] else [(key, .str v)]

/-- A bool field tagged `omitempty`. -/
def omitBool (key : String) (v : Bool) : List (String × Json) :=
  if v = false then [] else [(key, .bool v)]

/-- An int field tagged `omitempty`. -/
def omitInt (key : String) (v : Int) : List (String × Json) :=
  if v = 0 then [] else [(key, .num v)]

/-- A slice field tagged `omitempty` (nil and empty slices are both
omitted), the elements already marshalled. -/
def omitList (key : String) (l : List Json) : List (String × Json) :=
  if l.isEmpty then [] else [(key, .arr l)]

/-- A pointer field tagged `omitempty`, the pointee already marshalled. -/
def omitOpt (key : String) (o : Option Json) : List (String × Json) :=
  match o with
  | none => []
  | some j => [(key, j)]

/-- A field with no `omitempty` tag: always emitted. -/
def reqField (key : String) (j : Json) : List (String × Json) :=
  [(key, j)]

/-! The message/embed schema (discordhookdata.go), one Lean structure per Go
struct, with marshalling following each field's json tag and unmarshalling
following encoding/json's fill-by-member semantics.  A decoder applied to
JSON null yields the untouched zero-valued struct, as Go's Decode does. -/

/-- EmbedType: a string-typed enumeration ("rich", "image", ...). -/
abbrev EmbedType := String

/-- EmbedFooter: text (required), icon_url and proxy_icon_url (omitempty). -/
structure EmbedFooter where
  Text : String
  IconURL : String
  ProxyIconURL : String
deriving DecidableEq, Repr

/-- Marshal an EmbedFooter per its json tags. -/
def marshalEmbedFooter (f : EmbedFooter) : Json :=
  .obj (reqField "text" (.str f.Text) ++ omitString "icon_url" f.IconURL ++
    omitString "proxy_icon_url" f.ProxyIconURL)

/-- Unmarshal an EmbedFooter. -/
def unmarshalEmbedFooter (j : Json) : Option EmbedFooter :=
  match j with
  | .null => some ⟨"", "", ""⟩
  | .obj _ => do
    let t ← decodeStringField j "text"
    let i ← decodeStringField j "icon_url"
    let p ← decodeStringField j "proxy_icon_url"
    pure ⟨t, i, p⟩
  | _ => none

/-- EmbedImage: url, proxy_url, height, width — all omitempty. -/
structure EmbedImage where
  URL : String
  ProxyURL : String
  Height : Int
  Width : Int
deriving DecidableEq, Repr

/-- Marshal an EmbedImage per its json tags. -/
def marshalEmbedImage (im : EmbedImage) : Json :=
  .obj (omitString "url" im.URL ++ omitString "proxy_url" im.ProxyURL ++
    omitInt "height" im.Height ++ omitInt "width" im.Width)

/-- Unmarshal an EmbedImage. -/
def unmarshalEmbedImage (j : Json) : Option EmbedImage :=
  match j with
  | .null => some ⟨"", "", 0, 0⟩
  | .obj _ => do
    let u ← decodeStringField j "url"
    let p ← decodeStringField j "proxy_url"
    let h ← decodeIntField j "height"
    let w ← decodeIntField j "width"
    pure ⟨u, p, h, w⟩
  | _ => none

/-- EmbedThumbnail: url, proxy_url, height, width — all omitempty. -/
structure EmbedThumbnail where
  URL : String
  ProxyURL : String
  Height : Int
  Width : Int
deriving DecidableEq, Repr

/-- Marshal an EmbedThumbnail per its json tags. -/
def marshalEmbedThumbnail (th : EmbedThumbnail) : Json :=
  .obj (omitString "url" th.URL ++ omitString "proxy_url" th.ProxyURL ++
    omitInt "height" th.Height ++ omitInt "width" th.Width)

/-- Unmarshal an EmbedThumbnail. -/
def unmarshalEmbedThumbnail (j : Json) : Option EmbedThumbnail :=
  match j with
  | .null => some ⟨"", "", 0, 0⟩
  | .obj _ => do
    let u ← decodeStringField j "url"
    let p ← decodeStringField j "proxy_url"
    let h ← decodeIntField j "height"
    let w ← decodeIntField j "width"
    pure ⟨u, p, h, w⟩
  | _ => none

/-- EmbedVideo: url, height, width — all omitempty. -/
structure EmbedVideo where
  URL : String
  Height : Int
  Width : Int
deriving DecidableEq, Repr

/-- Marshal an EmbedVideo per its json tags. -/
def marshalEmbedVideo (v : EmbedVideo) : Json :=
  .obj (omitString "url" v.URL ++ omitInt "height" v.Height ++
    omitInt "width" v.Width)

/-- Unmarshal an EmbedVideo. -/
def unmarshalEmbedVideo (j : Json) : Option EmbedVideo :=
  match j with
  | .null => some ⟨"", 0, 0⟩
  | .obj _ => do
    let u ← decodeStringField j "url"
    let h ← decodeIntField j "height"
    let w ← decodeIntField j "width"
    pure ⟨u, h, w⟩
  | _ => none

/-- EmbedProvider: name and url, both omitempty. -/
structure EmbedProvider where
  Name : String
  URL : String
deriving DecidableEq, Repr

/-- Marshal an EmbedProvider per its json tags. -/
def marshalEmbedProvider (p : EmbedProvider) : Json :=
  .obj (omitString "name" p.Name ++ omitString "url" p.URL)

/-- Unmarshal an EmbedProvider. -/
def unmarshalEmbedProvider (j : Json) : Option EmbedProvider :=
  match j with
  | .null => some ⟨"", ""⟩
  | .obj _ => do
    let n ← decodeStringField j "name"
    let u ← decodeStringField j "url"
    pure ⟨n, u⟩
  | _ => none

/-- EmbedAuthor: name, url, icon_url, proxy_icon_url — all omitempty. -/
structure EmbedAuthor where
  Name : String
  URL : String
  IconURL : String
  ProxyIconURL : String
deriving DecidableEq, Repr

/-- Marshal an EmbedAuthor per its json tags. -/
def marshalEmbedAuthor (a : EmbedAuthor) : Json :=
  .obj (omitString "name" a.Name ++ omitString "url" a.URL ++
    omitString "icon_url" a.IconURL ++ omitString "proxy_icon_url" a.ProxyIconURL)

/-- Unmarshal an EmbedAuthor. -/
def unmarshalEmbedAuthor (j : Json) : Option EmbedAuthor :=
  match j with
  | .null => some ⟨"", "", "", ""⟩
  | .obj _ => do
    let n ← decodeStringField j "name"
    let u ← decodeStringField j "url"
    let i ← decodeStringField j "icon_url"
    let p ← decodeStringField j "proxy_icon_url"
    pure ⟨n, u, i, p⟩
  | _ => none

/-- EmbedField: name and value required (no omitempty), inline omitempty. -/
structure EmbedField where
  Name : String
  Value : String
  Inline : Bool
deriving DecidableEq, Repr

/-- Marshal an EmbedField per its json tags. -/
def marshalEmbedField (f : EmbedField) : Json :=
  .obj (reqField "name" (.str f.Name) ++ reqField "value" (.str f.Value) ++
    omitBool "inline" f.Inline)

/-- Unmarshal an EmbedField (a null array element leaves a zero value, as a
nil pointer does in the Go slice of pointers). -/
def unmarshalEmbedField (j : Json) : Option EmbedField :=
  match j with
  | .null => some ⟨"", "", false⟩
  | .obj _ => do
    let n ← decodeStringField j "name"
    let v ← decodeStringField j "value"
    let i ← decodeBoolField j "inline"
    pure ⟨n, v, i⟩
  | _ => none

/-- Embed: the rich-content block.  `Type'` models the Go field `Type`
(`Type` is reserved in Lean); `Timestamp` models `*time.Time` as an optional
timestamp string kept verbatim. -/
structure Embed where
  Title : String
  Type' : EmbedType
  Description : String
  URL : String
  Timestamp : Option String
  Color : Int
  Footer : Option EmbedFooter
  Image : Option EmbedImage
  Thumbnail : Option EmbedThumbnail
  Video : Option EmbedVideo
  Provider : Option EmbedProvider
  Author : Option EmbedAuthor
  Fields : List EmbedField
deriving DecidableEq, Repr

/-- Marshal an Embed per its json tags — every field omitempty. -/
def marshalEmbed (e : Embed) : Json :=
  .obj (omitString "title" e.Title ++ omitString "type" e.Type' ++
    omitString "description" e.Description ++ omitString "url" e.URL ++
    omitOpt "timestamp" (e.Timestamp.map Json.str) ++ omitInt "color" e.Color ++
    omitOpt "footer" (e.Footer.map marshalEmbedFooter) ++
    omitOpt "image" (e.Image.map marshalEmbedImage) ++
    omitOpt "thumbnail" (e.Thumbnail.map marshalEmbedThumbnail) ++
    omitOpt "video" (e.Video.map marshalEmbedVideo) ++
    omitOpt "provider" (e.Provider.map marshalEmbedProvider) ++
    omitOpt "author" (e.Author.map marshalEmbedAuthor) ++
    omitList "fields" (e.Fields.map marshalEmbedField))

/-- Unmarshal an Embed. -/
def unmarshalEmbed (j : Json) : Option Embed :=
  match j with
  | .null => some ⟨"", "", "", "", none, 0, none, none, none, none, none, none, []⟩
  | .obj _ => do
    let ti ← decodeStringField j "title"
    let ty ← decodeStringField j "type"
    let de ← decodeStringField j "description"
    let ur ← decodeStringField j "url"
    let ts ← decodeOptStringField j "timestamp"
    let co ← decodeIntField j "color"
    let fo ← decodeOptStruct j "footer" unmarshalEmbedFooter
    let im ← decodeOptStruct j "image" unmarshalEmbedImage
    let th ← decodeOptStruct j "thumbnail" unmarshalEmbedThumbnail
    let vi ← decodeOptStruct j "video" unmarshalEmbedVideo
    let pr ← decodeOptStruct j "provider" unmarshalEmbedProvider
    let au ← decodeOptStruct j "author" unmarshalEmbedAuthor
    let fi ← decodeListField j "fields" unmarshalEmbedField
    pure ⟨ti, ty, de, ur, ts, co, fo, im, th, vi, pr, au, fi⟩
  | _ => none

/-- MentionType: a string-typed enumeration ("roles", "users", "everyone"). -/
abbrev MentionType := String

/-- AllowedMentions: parse, roles, users — all omitempty slices. -/
structure AllowedMentions where
  Parse : List MentionType
  Roles : List Snowflake
  Users : List Snowflake
deriving DecidableEq, Repr

/-- Marshal an AllowedMentions per its json tags. -/
def marshalAllowedMentions (am : AllowedMentions) : Json :=
  .obj (omitList "parse" (am.Parse.map Json.str) ++
    omitList "roles" (am.Roles.map marshalSnowflake) ++
    omitList "users" (am.Users.map marshalSnowflake))

/-- Unmarshal an AllowedMentions. -/
def unmarshalAllowedMentions (j : Json) : Option AllowedMentions :=
  match j with
  | .null => some ⟨[], [], []⟩
  | .obj _ => do
    let pa ← decodeListField j "parse"
      (fun v => match v with | .str s => some s | _ => none)
    let ro ← decodeListField j "roles" unmarshalSnowflake
    let us ← decodeListField j "users" unmarshalSnowflake
    pure ⟨pa, ro, us⟩
  | _ => none

/-- WebhookExecuteParams: the Execute payload.  Every field carries
`omitempty` in the source. -/
structure WebhookExecuteParams where
  Content : String
  Username : String
  AvatarURL : String
  TTS : Bool
  Embeds : List Embed
  AllowedMentions : Option AllowedMentions
deriving DecidableEq, Repr

/-- Marshal a WebhookExecuteParams per its json tags (all omitempty). -/
def marshalWebhookExecuteParams (p : WebhookExecuteParams) : Json :=
  .obj (omitString "content" p.Content ++ omitString "username" p.Username ++
    omitString "avatar_url" p.AvatarURL ++ omitBool "tts" p.TTS ++
    omitList "embeds" (p.Embeds.map marshalEmbed) ++
    omitOpt "allowed_mentions" (p.AllowedMentions.map marshalAllowedMentions))

/-- Unmarshal a WebhookExecuteParams. -/
def unmarshalWebhookExecuteParams (j : Json) : Option WebhookExecuteParams :=
  match j with
  | .null => some ⟨"", "", "", false, [], none⟩
  | .obj _ => do
    let co ← decodeStringField j "content"
    let un ← decodeStringField j "username"
    let av ← decodeStringField j "avatar_url"
    let tt ← decodeBoolField j "tts"
    let em ← decodeListField j "embeds" unmarshalEmbed
    let am ← decodeOptStruct j "allowed_mentions" unmarshalAllowedMentions
    pure ⟨co, un, av, tt, em, am⟩
  | _ => none

/-- WebhookModifyParams: the Modify payload (name, avatar, channel_id). -/
structure WebhookModifyParams where
  Name : String
  Avatar : String
  ChannelID : Snowflake
deriving DecidableEq, Repr

/-- Marshal a WebhookModifyParams.  The source's struct tags read
`json:"name,omitemprty"` (and likewise for avatar and channel_id) — a
misspelling of `omitempty`.  encoding/json ignores unknown tag options, so
no field of this struct is ever omitted: all three members are always
emitted, zero-valued or not. -/
def marshalWebhookModifyParams (p : WebhookModifyParams) : Json :=
  .obj (reqField "name" (.str p.Name) ++ reqField "avatar" (.str p.Avatar) ++
    reqField "channel_id" (marshalSnowflake p.ChannelID))

/-- WebhookType: a Go int enumeration (1 incoming, 2 channel follower). -/
abbrev WebhookType := Int

/-- Modelled from the spec: the repository's User record, whose source file
is not under src (the Webhook struct refers to it as the optional creator
reference).  §1 treats users as opaque numeric identifiers, so only the id
is modelled; Go's decoder ignores unknown members, so decoding only the id
member is consistent with any larger record. -/
structure User where
  ID : Snowflake
deriving DecidableEq, Repr

/-- Modelled from the spec: decoder for the User record — reads the "id"
member with snowflake semantics, every other member being ignored. -/
def unmarshalUser (j : Json) : Option User :=
  match j with
  | .null => some ⟨0⟩
  | .obj _ => (decodeSnowflakeField j "id").map User.mk
  | _ => none

/-- Webhook: the server-owned webhook metadata record. -/
structure Webhook where
  ID : Snowflake
  Type' : WebhookType
  GuildID : Snowflake
  ChannelID : Snowflake
  User : Option User
  Name : String
  Avatar : String
  Token : String
deriving DecidableEq, Repr

/-- Unmarshal a Webhook per its json tags (id, type, guild_id, channel_id,
user, name, avatar, token). -/
def unmarshalWebhook (j : Json) : Option Webhook :=
  match j with
  | .null => some ⟨0, 0, 0, 0, none, "", "", ""⟩
  | .obj _ => do
    let id ← decodeSnowflakeField j "id"
    let ty ← decodeIntField j "type"
    let gi ← decodeSnowflakeField j "guild_id"
    let ch ← decodeSnowflakeField j "channel_id"
    let us ← decodeOptStruct j "user" unmarshalUser
    let nm ← decodeStringField j "name"
    let av ← decodeStringField j "avatar"
    let tk ← decodeStringField j "token"
    pure ⟨id, ty, gi, ch, us, nm, av, tk⟩
  | _ => none

/-- Modelled from the spec: the repository's Message record, whose source
file is not under src (Execute decodes the response into it).  §3 describes
it as the server-returned record with "its assigned numeric ID and
associated fields"; only the id is modelled, Go's decoder ignoring the
rest. -/
structure Message where
  ID : Snowflake
deriving DecidableEq, Repr

/-- Modelled from the spec: decoder for the Message record — reads the "id"
member with snowflake semantics, every other member being ignored. -/
def unmarshalMessage (j : Json) : Option Message :=
  match j with
  | .null => some ⟨0⟩
  | .obj _ => (decodeSnowflakeField j "id").map Message.mk
  | _ => none

/-! The HTTP layer.  A context is modelled by its only observable at the
moment Client.Do runs: whether it is already cancelled (or past its
deadline).  A request without an explicit context uses context.Background,
which is never cancelled — modelled by Ctx := none on the request. -/

/-- A cancellation context, reduced to whether it is cancelled when the
transport consults it. -/
abbrev Ctx := Bool

/-- One part of a multipart/form-data body: a plain form field holding the
JSON document written into it, or a file part (field name, file name,
byte content). -/
inductive MultipartPart where
  | formField : String → Json → MultipartPart
  | formFile : String → String → List Nat → MultipartPart

/-- A request body: a plain JSON document or a multipart form. -/
inductive RequestBody where
  | jsonBody : Json → RequestBody
  | multipartBody : List MultipartPart → RequestBody

/-- An outbound http.Request as this package builds it: method, URL,
optional Content-Type header, optional body, and the context attached via
WithContext (none when the request is left on context.Background). -/
structure HTTPRequest where
  Method : String
  URL : String
  ContentType : Option String
  Body : Option RequestBody
  Ctx : Option Ctx

/-- An http.Response, reduced to what the package reads: the status code,
the body's text, and the body's JSON parse — `BodyJson = none` exactly when
the body is empty or not a well-formed JSON document, in which case a
decoder run on it fails (jsoniter reports io.EOF on an empty body). -/
structure HTTPResponse where
  StatusCode : Nat
  Body : String
  BodyJson : Option Json

/-- The errors an operation can return, distinguishable as the Go errors
are: context cancellation (ctx.Err), other transport failures
(http.Client.Do), errors.New over a non-success response body, and a
jsoniter decode failure. -/
inductive ApiError where
  | canceledErr : ApiError
  | transportErr : String → ApiError
  | protocolErr : String → ApiError
  | decodeErr : ApiError
deriving DecidableEq, Repr

/-- An injected HTTP transport: how the network answers one request. -/
structure HttpClient where
  respond : HTTPRequest → Except String HTTPResponse

/-- http.Client.Do: a request whose attached context is already cancelled
fails with the context's error before anything is sent; otherwise the
transport answers, its failures surfacing as transport errors. -/
def HttpClient.do (c : HttpClient) (req : HTTPRequest) :
    Except ApiError HTTPResponse :=
  if req.Ctx = some true then .error .canceledErr
  else
    match c.respond req with
    | .error e => .error (.transportErr e)
    | .ok res => .ok res

/-- WebhookAPI: the endpoint client — the parsed webhook URL, the injected
HTTP client, and the wait flag. -/
structure WebhookAPI where
  URL : String
  Client : HttpClient
  Wait : Bool

/-- A character net/url.Parse accepts here: url.Parse rejects ASCII control
characters; '%' is excluded wholesale, a conservative restriction of Go's
validation of percent-escapes (the spec assumes tokens are URL-safe). -/
def urlCharOK (c : Char) : Bool :=
  0x20 ≤ c.toNat && c.toNat ≠ 0x7f && c ≠ '%'

/-- net/url.Parse, restricted to the absolute URL shape this package
builds: it succeeds exactly when every character is acceptable, and the
parsed URL prints back verbatim (its RawQuery and path are kept as
given). -/
def urlParse (s : String) : Option String :=
  if s.data.all urlCharOK then some s else none

/-- strconv.FormatBool. -/
def formatBool (b : Bool) : String :=
  if b then "true" else "false"

/-- The default transport substituted for a nil client
(http.DefaultClient).  Its real behavior is live network I/O, which this
embedding cannot perform; no theorem below evaluates it. -/
def defaultHttpClient : HttpClient :=
  ⟨fun _ => .error "network unavailable"⟩

/-- NewWebhookAPI: build the fixed URL string
`https://discord.com/api/webhooks/<id>/<token>?wait=<flag>` with
strconv.FormatUint and strconv.FormatBool, parse it (failure aborts
construction), substitute the default client for nil, and store URL,
client and wait flag. -/
def NewWebhookAPI (webhookID : Snowflake) (webhookToken : String)
    (wait : Bool) (client : Option HttpClient) : Except String WebhookAPI :=
  match urlParse ("https://discord.com/api/webhooks/" ++ Nat.repr webhookID ++
      "/" ++ webhookToken ++ "?wait=" ++ formatBool wait) with
  | none => .error "url parse error"
  | some u => .ok { URL := u, Client := client.getD defaultHttpClient, Wait := wait }

/-! The four operations.  Each Go method has a pointer receiver it never
assigns to; the embedding makes that frame condition visible by returning,
next to the result, the receiver's state when the method ends,
reassembled field by field from what the body leaves in place. -/

/-- The multipart body Execute writes, in writer order: CreateFormField
"payload_json" receives the jsoniter encoding of the parameters; then,
only when a file reader was passed, CreateFormFile "file"/filename receives
the copied stream. -/
def executeBuildBody (wep : WebhookExecuteParams) (file : Option (List Nat))
    (filename : String) : List MultipartPart :=
  let parts : List MultipartPart :=
    [.formField "payload_json" (marshalWebhookExecuteParams wep)]
  match file with
  | some f => parts ++ [.formFile "file" filename f]
  | none => parts

/-- The http.Request Execute builds: POST to the stored URL, multipart
content type (the boundary is abstracted), the multipart body, and the
caller's context attached when non-nil. -/
def executeBuildRequest (wa : WebhookAPI) (ctx : Option Ctx)
    (wep : WebhookExecuteParams) (file : Option (List Nat))
    (filename : String) : HTTPRequest :=
  { Method := "POST", URL := wa.URL,
    ContentType := some "multipart/form-data",
    Body := some (.multipartBody (executeBuildBody wep file filename)),
    Ctx := ctx }

/-- Execute's response handling: a status other than 200, 201 and 204
reads the whole body and returns errors.New of its text; on an accepted
status, the body is decoded into a Message exactly when the stored wait
flag is true, and nil is returned without touching the body otherwise. -/
def executeHandleResponse (wait : Bool) (res : HTTPResponse) :
    Except ApiError (Option Message) :=
  if res.StatusCode ≠ 200 ∧ res.StatusCode ≠ 201 ∧ res.StatusCode ≠ 204 then
    .error (.protocolErr res.Body)
  else if wait then
    match res.BodyJson with
    | none => .error .decodeErr
    | some j =>
      match unmarshalMessage j with
      | none => .error .decodeErr
      | some m => .ok (some m)
  else .ok none

/-- WebhookAPI.Execute: build the multipart body and the POST request,
attach the context when non-nil, perform the request, and handle the
response per the wait flag. -/
def WebhookAPI.Execute (wa : WebhookAPI) (ctx : Option Ctx)
    (wep : WebhookExecuteParams) (file : Option (List Nat))
    (filename : String) : Except ApiError (Option Message) × WebhookAPI :=
  (match wa.Client.do (executeBuildRequest wa ctx wep file filename) with
   | .error e => .error e
   | .ok res => executeHandleResponse wa.Wait res,
   { URL := wa.URL, Client := wa.Client, Wait := wa.Wait })

/-- Get's response handling: only status 200 is accepted, anything else
returns errors.New of the body text; on 200 the body is decoded into a
Webhook. -/
def getHandleResponse (res : HTTPResponse) : Except ApiError Webhook :=
  if res.StatusCode ≠ 200 then
    .error (.protocolErr res.Body)
  else
    match res.BodyJson with
    | none => .error .decodeErr
    | some j =>
      match unmarshalWebhook j with
      | none => .error .decodeErr
      | some wh => .ok wh

/-- The http.Request Get builds: GET to the stored URL, no body, the
caller's context attached when non-nil. -/
def getBuildRequest (wa : WebhookAPI) (ctx : Option Ctx) : HTTPRequest :=
  { Method := "GET", URL := wa.URL, ContentType := none, Body := none,
    Ctx := ctx }

/-- WebhookAPI.Get: GET the stored URL and decode the 200 response into a
Webhook. -/
def WebhookAPI.Get (wa : WebhookAPI) (ctx : Option Ctx) :
    Except ApiError Webhook × WebhookAPI :=
  (match wa.Client.do (getBuildRequest wa ctx) with
   | .error e => .error e
   | .ok res => getHandleResponse res,
   { URL := wa.URL, Client := wa.Client, Wait := wa.Wait })

/-- Modify's response handling: statuses other than 200 and 304 return
errors.New of the body text; on an accepted status the body is
unconditionally decoded into a Webhook — there is no special case for an
empty 304 body, whose decode fails with io.EOF. -/
def modifyHandleResponse (res : HTTPResponse) : Except ApiError Webhook :=
  if res.StatusCode ≠ 200 ∧ res.StatusCode ≠ 304 then
    .error (.protocolErr res.Body)
  else
    match res.BodyJson with
    | none => .error .decodeErr
    | some j =>
      match unmarshalWebhook j with
      | none => .error .decodeErr
      | some wh => .ok wh

/-- The http.Request Modify builds: PATCH to the stored URL, JSON content
type, the jsoniter encoding of the modify params as body, the caller's
context attached when non-nil. -/
def modifyBuildRequest (wa : WebhookAPI) (ctx : Option Ctx)
    (wmp : WebhookModifyParams) : HTTPRequest :=
  { Method := "PATCH", URL := wa.URL,
    ContentType := some "application/json",
    Body := some (.jsonBody (marshalWebhookModifyParams wmp)),
    Ctx := ctx }

/-- WebhookAPI.Modify: PATCH the JSON-encoded params to the stored URL and
decode the 200/304 response into a Webhook. -/
def WebhookAPI.Modify (wa : WebhookAPI) (ctx : Option Ctx)
    (wmp : WebhookModifyParams) : Except ApiError Webhook × WebhookAPI :=
  (match wa.Client.do (modifyBuildRequest wa ctx wmp) with
   | .error e => .error e
   | .ok res => modifyHandleResponse res,
   { URL := wa.URL, Client := wa.Client, Wait := wa.Wait })

/-- Delete's response handling: statuses other than 204 and 200 return
errors.New of the body text; otherwise success, no body read. -/
def deleteHandleResponse (res : HTTPResponse) : Except ApiError Unit :=
  if res.StatusCode ≠ 204 ∧ res.StatusCode ≠ 200 then
    .error (.protocolErr res.Body)
  else .ok ()

/-- The http.Request Delete builds: DELETE to the stored URL, no body —
and, unlike the other three methods, the ctx argument is never attached
(the source's Delete lacks the `if ctx != nil` WithContext step), so the
request stays on context.Background. -/
def deleteBuildRequest (wa : WebhookAPI) : HTTPRequest :=
  { Method := "DELETE", URL := wa.URL, ContentType := none, Body := none,
    Ctx := none }

/-- WebhookAPI.Delete: DELETE the stored URL; 204/200 is success.  The
ctx parameter is accepted but unused, as in the source. -/
def WebhookAPI.Delete (wa : WebhookAPI) (ctx : Option Ctx) :
    Except ApiError Unit × WebhookAPI :=
  (match wa.Client.do (deleteBuildRequest wa) with
   | .error e => .error e
   | .ok res => deleteHandleResponse res,
   { URL := wa.URL, Client := wa.Client, Wait := wa.Wait })

/-! Accepted status sets, one per operation, as the spec enumerates them. -/

/-- The statuses Execute accepts: 200, 201, 204. -/
abbrev execAccepts (code : Nat) : Prop := code = 200 ∨ code = 201 ∨ code = 204

/-- The statuses Get accepts: 200 only. -/
abbrev getAccepts (code : Nat) : Prop := code = 200

/-- The statuses Modify accepts: 200 and 304. -/
abbrev modifyAccepts (code : Nat) : Prop := code = 200 ∨ code = 304

/-- The statuses Delete accepts: 200 and 204. -/
abbrev deleteAccepts (code : Nat) : Prop := code = 200 ∨ code = 204

/-- Claim C1, counterexample: on a simulated 304 response with an empty
body, Modify does not return successfully — it fails with a decode error,
because the accepted status still flows into an unconditional body
decode. -/
theorem modify_304_empty_body_cex :
    modifyHandleResponse ⟨304, "", none⟩ = .error .decodeErr := rfl

/-- Claim C1 (amended): for every 304 response with an empty body, Modify
accepts the status as success but then unconditionally decodes the body,
so it fails with a decode error rather than returning successfully. -/
theorem modify_304_empty_body_decode_error (res : HTTPResponse)
    (hs : res.StatusCode = 304) (hb : res.BodyJson = none) :
    modifyHandleResponse res = .error .decodeErr := by
  simp [modifyHandleResponse, hs, hb]

/-- Claim C1, witness: the amended statement at the concrete empty-body
304 response. -/
theorem modify_304_empty_body_decode_error_witness :
    modifyHandleResponse ⟨304, "", none⟩ = .error .decodeErr :=
  modify_304_empty_body_decode_error ⟨304, "", none⟩ rfl rfl

/-- Claim C2: evaluation at the failing input — the all-zero modify
params.  Because the struct tags misspell `omitempty` as `omitemprty`,
the serialized PATCH body contains all three members even though the
caller set none of them (name and avatar as empty strings, channel_id as
null per the snowflake marshaller), where the spec requires an empty
object. -/
theorem modify_params_zero_values_not_omitted :
    marshalWebhookModifyParams ⟨"", "", 0⟩ =
      .obj [("name", .str ""), ("avatar", .str ""), ("channel_id", .null)] := rfl

/-- Claim C3: evaluation at the failing input — Delete called with an
already-cancelled context still performs the request and succeeds, because
the source's Delete never attaches its ctx argument to the request; Get on
the same client with the same cancelled context aborts with the
cancellation error, showing the other operations do honor it. -/
theorem delete_ignores_cancelled_context :
    (WebhookAPI.Delete ⟨"u", ⟨fun _ => .ok ⟨204, "", none⟩⟩, false⟩
        (some true)).1 = .ok ()
    ∧ (WebhookAPI.Get ⟨"u", ⟨fun _ => .ok ⟨204, "", none⟩⟩, false⟩
        (some true)).1 = .error .canceledErr :=
  ⟨rfl, rfl⟩

/-- Claim C8: for every Execute call, the built request's body is a
multipart form whose first part is the JSON-serialized parameters under
the fixed field name "payload_json" — present whether or not a file is
attached — and a second file part under the given filename is appended
exactly when a stream is supplied. -/
theorem execute_request_multipart_shape (wa : WebhookAPI) (ctx : Option Ctx)
    (wep : WebhookExecuteParams) (file : Option (List Nat)) (filename : String) :
    (executeBuildRequest wa ctx wep file filename).Body =
      some (.multipartBody
        (.formField "payload_json" (marshalWebhookExecuteParams wep) ::
          (match file with
           | none => []
           | some f => [.formFile "file" filename f]))) := by
  cases file <;> rfl

/-- Claim C9: the endpoint client is immutable — each of the four
operations ends with the receiver exactly as it began, its URL, HTTP
client and wait flag unchanged. -/
theorem operations_leave_client_unchanged (wa : WebhookAPI) (ctx : Option Ctx)
    (wep : WebhookExecuteParams) (file : Option (List Nat)) (filename : String)
    (wmp : WebhookModifyParams) :
    (wa.Execute ctx wep file filename).2 = wa ∧ (wa.Get ctx).2 = wa ∧
      (wa.Modify ctx wmp).2 = wa ∧ (wa.Delete ctx).2 = wa ∧
      (wa.Execute ctx wep file filename).2.URL = wa.URL ∧
      (wa.Execute ctx wep file filename).2.Client = wa.Client ∧
      (wa.Execute ctx wep file filename).2.Wait = wa.Wait :=
  ⟨rfl, rfl, rfl, rfl, rfl, rfl, rfl⟩

/-- Claim C10: for a client constructed with wait=true, an accepted
success status whose body is empty still flows into the Message decode,
so Execute returns a decode error rather than success. -/
theorem execute_wait_empty_body_decode_error (u : String)
    (res : HTTPResponse) (ctx : Option Ctx) (wep : WebhookExecuteParams)
    (file : Option (List Nat)) (filename : String)
    (hs : execAccepts res.StatusCode) (hb : res.BodyJson = none)
    (hc : ctx ≠ some true) :
    (WebhookAPI.Execute ⟨u, ⟨fun _ => .ok res⟩, true⟩ ctx wep file
        filename).1 = .error .decodeErr := by
  rcases hs with h | h | h <;>
    simp [WebhookAPI.Execute, HttpClient.do, executeBuildRequest,
      executeHandleResponse, hb, hc, h]

/-- Claim C10, witness: a 204 No Content response with empty body under
wait=true yields a decode error. -/
theorem execute_wait_empty_body_decode_error_witness :
    (WebhookAPI.Execute ⟨"u", ⟨fun _ => .ok ⟨204, "", none⟩⟩, true⟩ none
        ⟨"", "", "", false, [], none⟩ none "").1 = .error .decodeErr :=
  execute_wait_empty_body_decode_error "u" ⟨204, "", none⟩ none
    ⟨"", "", "", false, [], none⟩ none "" (Or.inr (Or.inr rfl)) rfl
    (by decide)

/-- Claim C5: on a successful Execute, wait=false never decodes the body —
whatever the body holds, the result is success with no message — and
wait=true decodes the body as a Message whose ID is exactly the body's
"id" member (read with snowflake semantics, absent meaning zero). -/
theorem execute_decode_per_wait_flag (res : HTTPResponse) (j : Json)
    (m : Message) :
    (execAccepts res.StatusCode → executeHandleResponse false res = .ok none)
    ∧ (res.StatusCode = 200 → res.BodyJson = some j →
        unmarshalMessage j = some m →
        executeHandleResponse true res = .ok (some m))
    ∧ (unmarshalMessage j = some m → decodeSnowflakeField j "id" = some m.ID) := by
  refine ⟨?_, ?_, ?_⟩
  · rintro (h | h | h) <;> simp [executeHandleResponse, h]
  · intro h200 hbj hum
    simp [executeHandleResponse, h200, hbj, hum]
  · intro hum
    cases j with
    | null =>
      simp [unmarshalMessage] at hum
      simp [← hum, decodeSnowflakeField, Json.lookup]
    | obj kvs =>
      simp [unmarshalMessage] at hum
      obtain ⟨s, hs, hm⟩ := hum
      simp [hs, ← hm]
    | bool b => simp [unmarshalMessage] at hum
    | num n => simp [unmarshalMessage] at hum
    | str s => simp [unmarshalMessage] at hum
    | arr l => simp [unmarshalMessage] at hum

/-- Claim C5, witness: a 200 response carrying a Message body with id 42
makes wait=true Execute handling return the Message with ID 42, and an
accepted status under wait=false returns success with no message. -/
theorem execute_decode_per_wait_flag_witness :
    executeHandleResponse false ⟨200, "b", some (.obj [("id", .str "42")])⟩
        = .ok none
    ∧ executeHandleResponse true ⟨200, "b", some (.obj [("id", .str "42")])⟩
        = .ok (some ⟨42⟩) :=
  ⟨(execute_decode_per_wait_flag ⟨200, "b", some (.obj [("id", .str "42")])⟩
      (.obj [("id", .str "42")]) ⟨42⟩).1 (Or.inl rfl),
   (execute_decode_per_wait_flag ⟨200, "b", some (.obj [("id", .str "42")])⟩
      (.obj [("id", .str "42")]) ⟨42⟩).2.1 rfl rfl (by decide)⟩

/-- Claim C4: each operation's response handling treats exactly its own
status set as acceptable — Execute 200/201/204, Get 200, Modify 200/304,
Delete 200/204.  Outside the set the result is precisely a protocol error
carrying the response body text verbatim; success is only possible inside
the set; and inside the set a decodable body (none needed for Delete,
either flag for Execute) yields success. -/
theorem operation_status_sets (wait : Bool) (res : HTTPResponse) :
    (executeHandleResponse wait res = .error (.protocolErr res.Body) ↔
      ¬ execAccepts res.StatusCode)
    ∧ (getHandleResponse res = .error (.protocolErr res.Body) ↔
      ¬ getAccepts res.StatusCode)
    ∧ (modifyHandleResponse res = .error (.protocolErr res.Body) ↔
      ¬ modifyAccepts res.StatusCode)
    ∧ (deleteHandleResponse res = .error (.protocolErr res.Body) ↔
      ¬ deleteAccepts res.StatusCode)
    ∧ ((∃ v, executeHandleResponse wait res = .ok v) →
      execAccepts res.StatusCode)
    ∧ ((∃ w, getHandleResponse res = .ok w) → getAccepts res.StatusCode)
    ∧ ((∃ w, modifyHandleResponse res = .ok w) → modifyAccepts res.StatusCode)
    ∧ (deleteHandleResponse res = .ok () ↔ deleteAccepts res.StatusCode)
    ∧ (getAccepts res.StatusCode → ∀ j w, res.BodyJson = some j →
        unmarshalWebhook j = some w → getHandleResponse res = .ok w)
    ∧ (modifyAccepts res.StatusCode → ∀ j w, res.BodyJson = some j →
        unmarshalWebhook j = some w → modifyHandleResponse res = .ok w)
    ∧ (execAccepts res.StatusCode → executeHandleResponse false res = .ok none)
    ∧ (execAccepts res.StatusCode → ∀ j m, res.BodyJson = some j →
        unmarshalMessage j = some m →
        executeHandleResponse true res = .ok (some m)) := by
  have execPos : ¬ execAccepts res.StatusCode → ∀ w,
      executeHandleResponse w res = .error (.protocolErr res.Body) := by
    intro h w
    unfold executeHandleResponse
    rw [if_pos (by simp only [execAccepts, not_or] at h; exact h)]
  have execNeg : execAccepts res.StatusCode → ∀ w e,
      executeHandleResponse w res ≠ .error (.protocolErr e) := by
    intro h w e
    unfold executeHandleResponse
    rw [if_neg (by rcases h with h | h | h <;> simp [h])]
    split
    · split
      · simp
      · split <;> simp
    · simp
  have getPos : ¬ getAccepts res.StatusCode →
      getHandleResponse res = .error (.protocolErr res.Body) := by
    intro h
    unfold getHandleResponse
    rw [if_pos h]
  have getNeg : getAccepts res.StatusCode → ∀ e,
      getHandleResponse res ≠ .error (.protocolErr e) := by
    intro h e
    unfold getHandleResponse
    rw [if_neg (by simp [getAccepts] at h; simp [h])]
    split
    · simp
    · split <;> simp
  have modPos : ¬ modifyAccepts res.StatusCode →
      modifyHandleResponse res = .error (.protocolErr res.Body) := by
    intro h
    unfold modifyHandleResponse
    rw [if_pos (by simp only [modifyAccepts, not_or] at h; exact h)]
  have modNeg : modifyAccepts res.StatusCode → ∀ e,
      modifyHandleResponse res ≠ .error (.protocolErr e) := by
    intro h e
    unfold modifyHandleResponse
    rw [if_neg (by rcases h with h | h <;> simp [h])]
    split
    · simp
    · split <;> simp
  have delPos : ¬ deleteAccepts res.StatusCode →
      deleteHandleResponse res = .error (.protocolErr res.Body) := by
    intro h
    unfold deleteHandleResponse
    rw [if_pos (by simp only [deleteAccepts, not_or] at h; exact ⟨h.2, h.1⟩)]
  have delOk : deleteAccepts res.StatusCode →
      deleteHandleResponse res = .ok () := by
    intro h
    unfold deleteHandleResponse
    rw [if_neg (by rcases h with h | h <;> simp [h])]
  refine ⟨⟨fun hEq hAcc => execNeg hAcc wait res.Body hEq,
      fun h => execPos h wait⟩,
    ⟨fun hEq hAcc => getNeg hAcc res.Body hEq, getPos⟩,
    ⟨fun hEq hAcc => modNeg hAcc res.Body hEq, modPos⟩,
    ⟨fun hEq hAcc => by rw [delOk hAcc] at hEq; simp at hEq, delPos⟩,
    ?_, ?_, ?_, ⟨?_, delOk⟩, ?_, ?_, ?_, ?_⟩
  · rintro ⟨v, hv⟩
    by_contra hAcc
    rw [execPos hAcc wait] at hv
    simp at hv
  · rintro ⟨w, hw⟩
    by_contra hAcc
    rw [getPos hAcc] at hw
    simp at hw
  · rintro ⟨w, hw⟩
    by_contra hAcc
    rw [modPos hAcc] at hw
    simp at hw
  · intro hEq
    by_contra hAcc
    rw [delPos hAcc] at hEq
    simp at hEq
  · intro h j w hbj hw
    unfold getHandleResponse
    rw [if_neg (by simp [getAccepts] at h; simp [h])]
    simp [hbj, hw]
  · intro h j w hbj hw
    unfold modifyHandleResponse
    rw [if_neg (by rcases h with h | h <;> simp [h])]
    simp [hbj, hw]
  · intro h
    unfold executeHandleResponse
    rw [if_neg (by rcases h with h | h | h <;> simp [h])]
    simp
  · intro h j m hbj hm
    unfold executeHandleResponse
    rw [if_neg (by rcases h with h | h | h <;> simp [h])]
    simp [hbj, hm]

/-- Claim C4, witness: a 429 response surfaces as a protocol error
carrying its body text verbatim under Execute, and a 204 response is
success for Delete. -/
theorem operation_status_sets_witness :
    executeHandleResponse true ⟨429, "rate limited", none⟩ =
      .error (.protocolErr "rate limited")
    ∧ deleteHandleResponse ⟨204, "", none⟩ = .ok () :=
  ⟨(operation_status_sets true ⟨429, "rate limited", none⟩).1.mpr (by decide),
   (operation_status_sets true ⟨204, "", none⟩).2.2.2.2.2.2.2.1.mpr (by decide)⟩

/-- Skipping an `omitempty` string member whose key differs from the one
looked up. -/
theorem lookupPairs_omitString (k v key : String)
    (rest : List (String × Json)) (h : k ≠ key) :
    lookupPairs (omitString k v ++ rest) key = lookupPairs rest key := by
  unfold omitString
  split <;> simp [lookupPairs, h]

/-- Skipping an `omitempty` bool member whose key differs from the one
looked up. -/
theorem lookupPairs_omitBool (k key : String) (v : Bool)
    (rest : List (String × Json)) (h : k ≠ key) :
    lookupPairs (omitBool k v ++ rest) key = lookupPairs rest key := by
  unfold omitBool
  split <;> simp [lookupPairs, h]

/-- Skipping an `omitempty` slice member whose key differs from the one
looked up. -/
theorem lookupPairs_omitList (k key : String) (l : List Json)
    (rest : List (String × Json)) (h : k ≠ key) :
    lookupPairs (omitList k l ++ rest) key = lookupPairs rest key := by
  unfold omitList
  split <;> simp [lookupPairs, h]

/-- An `omitempty` pointer member alone never answers a lookup for a
different key. -/
theorem lookupPairs_omitOpt_none (k key : String) (o : Option Json)
    (h : k ≠ key) :
    lookupPairs (omitOpt k o) key = none := by
  cases o with
  | none => rfl
  | some j => simp [omitOpt, lookupPairs, h]

/-- With content unset, the serialized Execute params contain no "content"
member at all: the content branch contributes nothing and every other
field serializes under its own distinct key. -/
theorem marshalWEP_lookup_content_none (p : WebhookExecuteParams)
    (h : p.Content = "") :
    (marshalWebhookExecuteParams p).lookup "content" = none := by
  simp only [marshalWebhookExecuteParams, Json.lookup]
  rw [h]
  rw [show omitString "content" "" = [] from rfl]
  simp only [List.nil_append, List.append_assoc]
  rw [lookupPairs_omitString _ _ _ _ (by decide)]
  rw [lookupPairs_omitString _ _ _ _ (by decide)]
  rw [lookupPairs_omitBool _ _ _ _ (by decide)]
  rw [lookupPairs_omitList _ _ _ _ (by decide)]
  exact lookupPairs_omitOpt_none _ _ _ (by decide)

/-- Whatever Execute params decode out of a JSON object, their Content is
exactly what the "content" member decodes to. -/
theorem unmarshalWEP_content (l : List (String × Json))
    (q : WebhookExecuteParams)
    (hq : unmarshalWebhookExecuteParams (.obj l) = some q) :
    decodeStringField (.obj l) "content" = some q.Content := by
  simp only [unmarshalWebhookExecuteParams] at hq
  cases hco : decodeStringField (Json.obj l) "content" with
  | none => rw [hco] at hq; simp at hq
  | some c =>
    rw [hco] at hq
    cases hun : decodeStringField (Json.obj l) "username" with
    | none => rw [hun] at hq; simp at hq
    | some un =>
      rw [hun] at hq
      cases hav : decodeStringField (Json.obj l) "avatar_url" with
      | none => rw [hav] at hq; simp at hq
      | some av =>
        rw [hav] at hq
        cases htt : decodeBoolField (Json.obj l) "tts" with
        | none => rw [htt] at hq; simp at hq
        | some tt =>
          rw [htt] at hq
          cases hem : decodeListField (Json.obj l) "embeds" unmarshalEmbed with
          | none => rw [hem] at hq; simp at hq
          | some em =>
            rw [hem] at hq
            cases ham : decodeOptStruct (Json.obj l) "allowed_mentions"
                unmarshalAllowedMentions with
            | none => rw [ham] at hq; simp at hq
            | some am =>
              rw [ham] at hq
              simp at hq
              rw [← hq]

/-- Claim C7: for all Execute params with content unset, the serialized
JSON omits the "content" key entirely, and any successful decode of that
serialization has content unset again (round trip). -/
theorem content_unset_omitted_and_roundtrip (p : WebhookExecuteParams)
    (h : p.Content = "") :
    (marshalWebhookExecuteParams p).lookup "content" = none
    ∧ ∀ q, unmarshalWebhookExecuteParams (marshalWebhookExecuteParams p) =
        some q → q.Content = "" := by
  have hlk := marshalWEP_lookup_content_none p h
  refine ⟨hlk, fun q hq => ?_⟩
  have h1 : decodeStringField (marshalWebhookExecuteParams p) "content" =
      some q.Content := by
    simp only [marshalWebhookExecuteParams] at hq ⊢
    exact unmarshalWEP_content _ q hq
  have h2 : decodeStringField (marshalWebhookExecuteParams p) "content" =
      some "" := by
    unfold decodeStringField
    rw [hlk]
  rw [h1] at h2
  exact Option.some.inj h2

/-- Claim C7, witness: the all-unset params serialize to a JSON object
without a "content" member, decode back to themselves, and every decode of
that serialization leaves content unset. -/
theorem content_unset_omitted_and_roundtrip_witness :
    (marshalWebhookExecuteParams ⟨"", "", "", false, [], none⟩).lookup
        "content" = none
    ∧ unmarshalWebhookExecuteParams
        (marshalWebhookExecuteParams ⟨"", "", "", false, [], none⟩) =
        some ⟨"", "", "", false, [], none⟩
    ∧ ∀ q, unmarshalWebhookExecuteParams
        (marshalWebhookExecuteParams ⟨"", "", "", false, [], none⟩) =
        some q → q.Content = "" :=
  ⟨(content_unset_omitted_and_roundtrip ⟨"", "", "", false, [], none⟩ rfl).1,
   rfl,
   (content_unset_omitted_and_roundtrip ⟨"", "", "", false, [], none⟩ rfl).2⟩

/-- Every character strconv's base-10 formatting can produce is acceptable
to the URL parser (digits are never control characters). -/
theorem toDigitsCore_urlCharOK (fuel : Nat) : ∀ (n : Nat) (ds : List Char),
    (∀ c ∈ ds, urlCharOK c = true) →
    ∀ c ∈ Nat.toDigitsCore 10 fuel n ds, urlCharOK c = true := by
  induction fuel with
  | zero =>
    intro n ds hds c hc
    rw [Nat.toDigitsCore] at hc
    exact hds c hc
  | succ f ih =>
    intro n ds hds c hc
    rw [Nat.toDigitsCore] at hc
    have hd : urlCharOK (Nat.digitChar (n % 10)) = true := by
      have : n % 10 < 10 := Nat.mod_lt _ (by omega)
      revert this
      generalize n % 10 = m
      revert m
      decide
    split at hc
    · rw [List.mem_cons] at hc
      rcases hc with h | h
      · rw [h]; exact hd
      · exact hds c h
    · refine ih (n / 10) (Nat.digitChar (n % 10) :: ds) ?_ c hc
      intro c' hc'
      rw [List.mem_cons] at hc'
      rcases hc' with h | h
      · rw [h]; exact hd
      · exact hds c' h

/-- All characters of a formatted Nat are acceptable URL characters. -/
theorem repr_urlCharOK (n : Nat) :
    ∀ c ∈ (Nat.repr n).data, urlCharOK c = true := by
  intro c hc
  have hrepr : (Nat.repr n).data = Nat.toDigitsCore 10 (n + 1) n [] := rfl
  rw [hrepr] at hc
  exact toDigitsCore_urlCharOK (n + 1) n [] (by simp) c hc

/-- Claim C6: for every valid (id, token, wait) triple — validity being
that the token consists of URL-safe characters, ids being numeric and
hence always safe — construction succeeds, and the stored request URL
contains the formatted id verbatim, the token verbatim, and ends in a wait
query parameter equal to the boolean passed, the wait flag being stored as
given too. -/
theorem construction_url_contains_id_token_wait (webhookID : Snowflake)
    (webhookToken : String) (wait : Bool) (client : Option HttpClient)
    (h : ∀ c ∈ webhookToken.data, urlCharOK c = true) :
    ∃ wa, NewWebhookAPI webhookID webhookToken wait client = .ok wa
      ∧ (∃ pre post, wa.URL = pre ++ Nat.repr webhookID ++ post)
      ∧ (∃ pre post, wa.URL = pre ++ webhookToken ++ post)
      ∧ (∃ pre, wa.URL = pre ++ ("?wait=" ++ formatBool wait))
      ∧ wa.Wait = wait := by
  have hall : ("https://discord.com/api/webhooks/" ++ Nat.repr webhookID ++
      "/" ++ webhookToken ++ "?wait=" ++ formatBool wait).data.all urlCharOK
      = true := by
    rw [List.all_eq_true]
    intro c hc
    simp only [String.data_append, List.mem_append] at hc
    rcases hc with ((((hc | hc) | hc) | hc) | hc) | hc
    · exact (by decide :
        ∀ c ∈ ("https://discord.com/api/webhooks/" : String).data,
          urlCharOK c = true) c hc
    · exact repr_urlCharOK webhookID c hc
    · exact (by decide : ∀ c ∈ ("/" : String).data, urlCharOK c = true) c hc
    · exact h c hc
    · exact (by decide : ∀ c ∈ ("?wait=" : String).data, urlCharOK c = true)
        c hc
    · cases wait <;> revert hc <;>
        exact fun hc => (by decide :
          ∀ c ∈ (formatBool _).data, urlCharOK c = true) c hc
  refine ⟨⟨"https://discord.com/api/webhooks/" ++ Nat.repr webhookID ++ "/" ++
      webhookToken ++ "?wait=" ++ formatBool wait,
      client.getD defaultHttpClient, wait⟩, ?_, ?_, ?_, ?_, rfl⟩
  · unfold NewWebhookAPI urlParse
    rw [if_pos hall]
  · exact ⟨"https://discord.com/api/webhooks/",
      "/" ++ webhookToken ++ "?wait=" ++ formatBool wait,
      by simp [String.append_assoc]⟩
  · exact ⟨"https://discord.com/api/webhooks/" ++ Nat.repr webhookID ++ "/",
      "?wait=" ++ formatBool wait, by simp [String.append_assoc]⟩
  · exact ⟨"https://discord.com/api/webhooks/" ++ Nat.repr webhookID ++ "/" ++
      webhookToken, by simp [String.append_assoc]⟩

/-- Claim C6, witness: id 42, token "tokenABC", wait=true. -/
theorem construction_url_witness :
    ∃ wa, NewWebhookAPI 42 "tokenABC" true none = .ok wa
      ∧ (∃ pre post, wa.URL = pre ++ Nat.repr 42 ++ post)
      ∧ (∃ pre post, wa.URL = pre ++ "tokenABC" ++ post)
      ∧ (∃ pre, wa.URL = pre ++ ("?wait=" ++ formatBool true))
      ∧ wa.Wait = true :=
  construction_url_contains_id_token_wait 42 "tokenABC" true none (by decide)
